import Mathlib

/-!
Shallow embedding of the Tarantool HTTP client core (src/httpc.c) and proofs
about its header handling, method dispatch, redirect-aware header
accumulation, completion classification and streaming write path.

Conventions of the embedding:
* header lines and byte buffers are `List Char` / `List Nat`;
* C `long` values are modelled as `Int` (overflow of `strtol` is not
  modelled: values stay exact, which is faithful for all inputs a C `long`
  can represent);
* fallible operations return `Except`;
* the libcurl engine is an oracle: its observable outputs (redirect counts,
  terminal codes, response codes, condition-variable wait outcomes) are
  inputs of the embedded functions.
-/

namespace Httpc

/-- The `MAX_HEADER_LEN` constant of httpc.c. -/
def MAX_HEADER_LEN : Nat := 8192

/-- The characters the C locale `isspace` accepts; used by `strtol` to skip
leading whitespace. -/
def isSpace (c : Char) : Bool :=
  c = ' ' || c = '\t' || c = '\n' || c = '\x0b' || c = '\x0c' || c = '\r'

/-- Digit-run consumption of `strtol`: consume leading decimal digits,
accumulating the value; return the value and the unconsumed suffix. -/
def strtolDigits : List Char → Nat → Nat × List Char
  | c :: cs, acc =>
    if c.isDigit then strtolDigits cs (acc * 10 + (c.toNat - 48)) else (acc, c :: cs)
  | [], acc => (acc, [])

/-- Model of C `strtol(s, &end, 10)`: skip whitespace, read an optional sign
and a digit run. Returns the value and the suffix starting at `end`. When no
conversion is performed, `end` is the original start of the string, so the
whole input is returned as the suffix. -/
def strtol10 (s : List Char) : Int × List Char :=
  match s.dropWhile isSpace with
  | [] => (0, s)
  | c :: cs =>
    if c = '-' then
      match cs with
      | [] => (0, s)
      | d :: _ =>
        if d.isDigit then
          let p := strtolDigits cs 0
          (-(p.1 : Int), p.2)
        else (0, s)
    else if c = '+' then
      match cs with
      | [] => (0, s)
      | d :: _ =>
        if d.isDigit then
          let p := strtolDigits cs 0
          ((p.1 : Int), p.2)
        else (0, s)
    else if c.isDigit then
      let p := strtolDigits (c :: cs) 0
      ((p.1 : Int), p.2)
    else (0, s)

/-- The header-related state of `struct httpc_request` touched by
`httpc_set_header` and the auto-header phase of `httpc_request_start`. -/
structure ReqHdr where
  set_accept_header : Bool
  set_connection_header : Bool
  set_keep_alive_header : Bool
  content_length : Int
  keep_alive_timeout : Int
  headers : List (List Char)
deriving DecidableEq

/-- Fields of a freshly created request, per `httpc_request_new` (memset to
zero, then `set_connection_header = true`, `set_keep_alive_header = true`,
`content_length = -1`; `set_accept_header` is set only by the POST-shaped
method branch). -/
def reqHdrNew (accept : Bool) : ReqHdr :=
  { set_accept_header := accept
    set_connection_header := true
    set_keep_alive_header := true
    content_length := -1
    keep_alive_timeout := 0
    headers := [] }

/-- Error kinds raised by the embedded operations (`diag_set` classes). -/
inductive Err where
  | illegalParams (msg : String)
  | timedOut
deriving DecidableEq

/-- Model of `strncasecmp(s, p, strlen p) == 0`: case-insensitive prefix
test. -/
def startsWithCase : List Char → List Char → Bool
  | [], _ => true
  | _ :: _, [] => false
  | p :: ps, c :: cs => (c.toLower == p.toLower) && startsWithCase ps cs

/-- The `HTTP_ACCEPT_HEADER` constant. -/
def HTTP_ACCEPT_HEADER : List Char := ("Accept:").toList

/-- The `HTTP_CONNECTION_HEADER` constant. -/
def HTTP_CONNECTION_HEADER : List Char := ("Connection:").toList

/-- The `HTTP_CONTENT_LENGTH_HEADER` constant. -/
def HTTP_CONTENT_LENGTH_HEADER : List Char := ("Content-Length:").toList

/-- The `HTTP_KEEP_ALIVE_HEADER` constant. -/
def HTTP_KEEP_ALIVE_HEADER : List Char := ("Keep-Alive:").toList

/-- Model of `httpc_set_header` applied to an already formatted line.
`vsnprintf` reports the full formatted length; a length above
`MAX_HEADER_LEN` is rejected. Then the auto-managed header prefixes are
matched case-insensitively in the order of the source; a `Content-Length`
line has its value parsed by `strtol`, rejecting a nonempty unconsumed
suffix or a negative value. Finally the line is appended to the header list
(`curl_slist_append` is modelled as always succeeding). -/
def httpc_set_header (req : ReqHdr) (header : List Char) : Except Err ReqHdr :=
  if header.length > MAX_HEADER_LEN then
    .error (.illegalParams "header is too large")
  else
    let upd : Except Err ReqHdr :=
      if startsWithCase HTTP_ACCEPT_HEADER header then
        .ok { req with set_accept_header := false }
      else if startsWithCase HTTP_CONNECTION_HEADER header then
        .ok { req with set_connection_header := false }
      else if startsWithCase HTTP_CONTENT_LENGTH_HEADER header then
        let v := header.drop HTTP_CONTENT_LENGTH_HEADER.length
        let p := strtol10 v
        if p.2 ≠ [] ∨ p.1 < 0 then
          .error (.illegalParams "Content-Length header value must be a non-negative integer")
        else
          .ok { req with content_length := p.1 }
      else if startsWithCase HTTP_KEEP_ALIVE_HEADER header then
        .ok { req with set_keep_alive_header := false }
      else
        .ok req
    match upd with
    | .error e => .error e
    | .ok r => .ok { r with headers := r.headers ++ [header] }

/-- Content-Length values accepted by the code, characterised independently
of `strtol`: the empty value is accepted as `0`; otherwise the value must
be optional whitespace, an optional sign and a nonempty digit run filling
the rest of the value, and the signed result must be nonnegative. -/
def clValue (v : List Char) : Option Int :=
  if v = [] then some 0
  else
    match v.dropWhile isSpace with
    | [] => none
    | c :: cs =>
      let neg : Bool := c = '-'
      let u := if c = '-' ∨ c = '+' then cs else c :: cs
      if u ≠ [] ∧ u.all Char.isDigit then
        let n : Int := (u.foldl (fun a ch => a * 10 + (ch.toNat - 48)) 0 : Nat)
        if neg ∧ n ≠ 0 then none else some n
      else none

/-- Auxiliary decimal printer: digits of `n`, most significant first, with a
recursion-depth bound. The bound 64 exceeds the digit count of any C `long`,
so the rendering is exact on the whole domain of `%ld`. -/
def natDigitsAux : Nat → Nat → List Char
  | 0, _ => []
  | fuel + 1, n => if n = 0 then [] else natDigitsAux fuel (n / 10) ++ [Char.ofNat (48 + n % 10)]

/-- Decimal rendering of a nonnegative value (`%ld` for nonnegative longs). -/
def natDecimal (n : Nat) : List Char := if n = 0 then ['0'] else natDigitsAux 64 n

/-- Decimal rendering of a signed long, as `%ld` formats it. -/
def fmtLong (i : Int) : List Char :=
  if i < 0 then '-' :: natDecimal i.natAbs else natDecimal i.toNat

/-- The `Connection:` line appended by `httpc_request_start`. -/
def connLine (t : Int) : List Char :=
  ("Connection: ").toList ++ (if 0 < t then ("Keep-Alive").toList else ("close").toList)

/-- The `Keep-Alive: timeout=` line appended by `httpc_request_start`. -/
def kaLine (t : Int) : List Char := ("Keep-Alive: timeout=").toList ++ fmtLong t

/-- The `Accept:` line appended by `httpc_request_start`. -/
def accLine : List Char := ("Accept: */*").toList

/-- The auto-header phase of `httpc_request_start` (lines 653-665 of
httpc.c): append `Accept: */*` when `set_accept_header` is still set, then a
`Connection:` line when `set_connection_header` is still set (Keep-Alive
when `keep_alive_timeout > 0`, close otherwise), then a `Keep-Alive:
timeout=` line when `set_keep_alive_header` is still set and
`keep_alive_timeout > 0`. Each append goes through `httpc_set_header`. -/
def httpc_request_start_headers (req : ReqHdr) : Except Err ReqHdr := do
  let r1 ← if req.set_accept_header then httpc_set_header req accLine else pure req
  let r2 ← if r1.set_connection_header then
             httpc_set_header r1 (connLine r1.keep_alive_timeout)
           else pure r1
  let r3 ← if r2.set_keep_alive_header ∧ 0 < r2.keep_alive_timeout then
             httpc_set_header r2 (kaLine r2.keep_alive_timeout)
           else pure r2
  pure r3

/-- Outcome of the method dispatch in `httpc_request_new` (lines 175-196):
which engine options are set for the given method string. `post_shaped`
bundles CURLOPT_POST = 1, empty CURLOPT_POSTFIELDS, CURLOPT_POSTFIELDSIZE =
0 (the POST-with-empty-body defaults). -/
structure MethodSetup where
  httpget : Bool
  nobody : Bool
  post_shaped : Bool
  customrequest : Option (List Char)
  set_accept_header : Bool
deriving DecidableEq

/-- Method dispatch of `httpc_request_new`, faithful to the source: the
third disjunct of the POST branch is `strcmp(method, "PATCH")` without
`== 0`, i.e. it is taken exactly when the method differs from `PATCH`. -/
def httpc_request_new_method (m : List Char) : MethodSetup :=
  if m = ("GET").toList then
    { httpget := true, nobody := false, post_shaped := false
      customrequest := none, set_accept_header := false }
  else if m = ("HEAD").toList then
    { httpget := false, nobody := true, post_shaped := false
      customrequest := none, set_accept_header := false }
  else if m = ("POST").toList ∨ m = ("PUT").toList ∨ ¬ (m = ("PATCH").toList) then
    { httpget := false, nobody := false, post_shaped := true
      customrequest := some m, set_accept_header := true }
  else
    { httpget := false, nobody := false, post_shaped := false
      customrequest := some m, set_accept_header := false }

/-- The method dispatch the spec states: exactly `POST`, `PUT`, `PATCH` get
the POST-shaped setup, and every other non-GET non-HEAD method only gets
CUSTOMREQUEST. Stated from the words of the spec for comparison with the
source dispatch. -/
def spec_method_dispatch (m : List Char) : MethodSetup :=
  if m = ("GET").toList then
    { httpget := true, nobody := false, post_shaped := false
      customrequest := none, set_accept_header := false }
  else if m = ("HEAD").toList then
    { httpget := false, nobody := true, post_shaped := false
      customrequest := none, set_accept_header := false }
  else if m = ("POST").toList ∨ m = ("PUT").toList ∨ m = ("PATCH").toList then
    { httpget := false, nobody := false, post_shaped := true
      customrequest := some m, set_accept_header := true }
  else
    { httpget := false, nobody := false, post_shaped := false
      customrequest := some m, set_accept_header := false }

/-- One step of `curl_easy_header_cb`: state is the stored
`req.redirect_count` paired with the accumulated `resp_headers` bytes; the
event is the redirect count the engine reports paired with the delivered
header bytes. When the reported count exceeds the stored one the stored
count advances and the accumulated headers are reset before appending.
`region_alloc` failure (out of memory) is not modelled. -/
def curl_easy_header_cb (st : Nat × List Nat) (ev : Nat × List Nat) : Nat × List Nat :=
  if ev.1 > st.1 then (ev.1, ev.2) else (st.1, st.2 ++ ev.2)

/-- Process a whole trace of header-callback events from the initial state
(redirect count 0, empty `resp_headers`). -/
def processHeaders (evs : List (Nat × List Nat)) : Nat × List Nat :=
  evs.foldl curl_easy_header_cb (0, [])

/-- The final-hop header bytes of a trace: concatenation of the bytes of
every event whose reported redirect count equals `m`. -/
def finalHopBytes (m : Nat) (evs : List (Nat × List Nat)) : List Nat :=
  ((evs.filter (fun e => e.1 == m)).map Prod.snd).flatten

/-- One step of `curl_easy_header_cb` with the `assert(redirect_count ==
req->redirect_count + 1)` of line 120 checked: `none` means the assertion
fired. -/
def headerCbChecked (st : Nat × List Nat) (ev : Nat × List Nat) : Option (Nat × List Nat) :=
  if ev.1 > st.1 then
    if ev.1 = st.1 + 1 then some (ev.1, ev.2) else none
  else some (st.1, st.2 ++ ev.2)

/-- Process a trace through the assertion-checked callback. -/
def processHeadersChecked (evs : List (Nat × List Nat)) : Option (Nat × List Nat) :=
  evs.foldlM headerCbChecked (0, [])

/-- Terminal codes of the engine distinguished by `httpc_request_finish`.
`CURLE_SSL_CACERT` is the same case label as `peerFailedVerification` in
the source and is merged with it. `other` stands for every remaining code. -/
inductive CurlCode where
  | ok
  | peerFailedVerification
  | operationTimedout
  | gotNothing
  | couldntResolveProxy
  | couldntResolveHost
  | couldntConnect
  | writeError
  | badContentEncoding
  | outOfMemory
  | other
deriving DecidableEq

/-- The statistics record of the environment (`struct httpc_stat`). -/
structure Stats where
  total_requests : Nat
  http_200_responses : Nat
  http_other_responses : Nat
  failed_requests : Nat
deriving DecidableEq

/-- The completion-related fields of a request: `status` (0 until
finished) and `reason` (`none` models the NULL pointer before finish). -/
structure ReqFin where
  status : Int
  reason : Option String
deriving DecidableEq

/-- Error results of `httpc_request_finish`: the OutOfMemory diag and the
SystemError diag with its errno. -/
inductive FinishErr where
  | outOfMemory
  | systemError (errno : Int) (msg : String)
deriving DecidableEq

/-- The `EINVAL` errno value used when the engine reports no OS errno. -/
def EINVAL : Int := 22

/-- Classification stage of `httpc_request_finish` (lines 698-759), reached
once `curl_request_finish` returned `CURLM_OK`. The engine outputs are
inputs: the terminal `code`, the `CURLINFO_RESPONSE_CODE` value `respCode`,
the `CURLINFO_OS_ERRNO` value `osErrno`, and `strerror` standing for
`curl_easy_strerror`. Returns the updated statistics and either an error or
the finished request. -/
def httpc_request_finish (req : ReqFin) (st : Stats) (code : CurlCode)
    (respCode : Int) (osErrno : Int) (strerror : CurlCode → String) :
    Stats × Except FinishErr ReqFin :=
  match code with
  | .ok =>
    let status := respCode
    let reason := if 100 ≤ status ∧ status < 400 then "Ok" else "Unknown"
    let st :=
      if status = 200 then { st with http_200_responses := st.http_200_responses + 1 }
      else { st with http_other_responses := st.http_other_responses + 1 }
    (st, .ok { req with status := status, reason := some reason })
  | .peerFailedVerification =>
    ({ st with failed_requests := st.failed_requests + 1 },
     .ok { req with status := 495, reason := some (strerror code) })
  | .operationTimedout =>
    ({ st with failed_requests := st.failed_requests + 1 },
     .ok { req with status := 408, reason := some (strerror code) })
  | .gotNothing =>
    ({ st with failed_requests := st.failed_requests + 1 },
     .ok { req with status := 444, reason := some (strerror code) })
  | .couldntResolveProxy | .couldntResolveHost | .couldntConnect
  | .writeError | .badContentEncoding =>
    ({ st with failed_requests := st.failed_requests + 1 },
     .ok { req with status := 595, reason := some (strerror code) })
  | .outOfMemory =>
    ({ st with failed_requests := st.failed_requests + 1 }, .error .outOfMemory)
  | .other =>
    ({ st with failed_requests := st.failed_requests + 1 },
     .error (.systemError (if osErrno ≠ 0 then osErrno else EINVAL) (strerror code)))

/-- What the cooperative world does at each iteration of the drain loop of
`httpc_request_io_write`: either the deadline-bounded wait times out, or
the fiber is woken and re-reads the transfer-in-progress flag and the
`send` buffer contents. -/
inductive LoopEvent where
  | timeout
  | wake (in_progress : Bool) (send : List Nat)
deriving DecidableEq

/-- Result of the drain loop: the in-loop deadline wait failed, or the loop
exited with the given observed flag and `send` contents. -/
inductive DrainOut where
  | timedOutErr
  | done (in_progress : Bool) (send : List Nat)
deriving DecidableEq

/-- The `while (in_progress && ibuf_len && timeout > 0)` loop of
`httpc_request_io_write` (lines 591-597). `none` means the supplied event
trace ran out while the loop still spun. -/
def drainLoop (timeout : Int) : Bool → List Nat → List LoopEvent → Option DrainOut
  | inProg, send, evs =>
    if inProg = true ∧ send ≠ [] ∧ 0 < timeout then
      match evs with
      | [] => none
      | .timeout :: _ => some .timedOutErr
      | .wake p s :: rest => drainLoop timeout p s rest
    else some (.done inProg send)

/-- The request state read and written by `httpc_request_io_write`. -/
structure IoReq where
  io : Bool
  io_send : Bool
  in_progress : Bool
  io_send_closed : Bool
  send : List Nat
deriving DecidableEq

/-- The oracle for one `io_write` call: the outcomes of the drain-loop
waits, and how many bytes the engine consumed from `send` during the final
deadline-bounded wait after the pause-send-continue resume. -/
structure IoWorld where
  events : List LoopEvent
  finalConsumed : Nat
deriving DecidableEq

/-- Return value of `io_write`: an error (`-1` with a diag) or a byte
count. -/
inductive IoWriteRes where
  | err (e : Err)
  | ret (n : Nat)
deriving DecidableEq

/-- Model of `httpc_request_io_write` (lines 571-623). The caller passes
the bytes to queue (`data = []` models `ptr = NULL, len = 0`, the close
signal). Returns `none` when the oracle trace does not resolve the drain
loop, otherwise the result and the updated request state. -/
def httpc_request_io_write (req : IoReq) (data : List Nat) (timeout : Int)
    (w : IoWorld) : Option (IoWriteRes × IoReq) :=
  if req.io = false then
    some (.err (.illegalParams "io: request must be io"), req)
  else if req.io_send = false then
    some (.err (.illegalParams "io: HTTP request method with no body to send"), req)
  else if req.in_progress = false ∨ req.io_send_closed = true then
    some (.ret 0, req)
  else
    match drainLoop timeout req.in_progress req.send w.events with
    | none => none
    | some .timedOutErr => some (.err .timedOut, req)
    | some (.done inProg send) =>
      if send ≠ [] then
        if inProg then some (.err .timedOut, { req with in_progress := inProg, send := send })
        else some (.ret 0, { req with in_progress := inProg, send := send })
      else
        let req1 : IoReq :=
          if data ≠ [] then { req with in_progress := inProg, send := data }
          else { req with in_progress := inProg, send := [], io_send_closed := true }
        let postSend := req1.send.drop w.finalConsumed
        if postSend ≠ [] then some (.ret 0, { req1 with send := [] })
        else some (.ret data.length, { req1 with send := postSend })

example : strtol10 ((" 42").toList) = (42, []) := by decide
example : strtol10 (("-0").toList) = (0, []) := by decide
example : strtol10 (("7x").toList) = (7, ['x']) := by decide
example : strtol10 (("").toList) = (0, []) := by decide
example : strtol10 ((" ").toList) = (0, [' ']) := by decide
example : clValue (("-1").toList) = none := by decide
example : clValue (("").toList) = some 0 := by decide
example :
    httpc_set_header (reqHdrNew false) (("Content-Length: 12").toList) =
      .ok { reqHdrNew false with
              content_length := 12
              headers := [("Content-Length: 12").toList] } := by rfl

example :
    httpc_request_new_method (("DELETE").toList) ≠
      spec_method_dispatch (("DELETE").toList) := by decide

/-- C1: the claim says exactly POST, PUT and PATCH get the POST-shaped
setup and every other non-GET non-HEAD method only CUSTOMREQUEST. The
source instead evaluates `strcmp(method, "PATCH")` without `== 0`, so
`PATCH` gets only CUSTOMREQUEST while every unknown method (here `DELETE`)
gets the POST-shaped setup; this theorem evaluates the source dispatch at
both failing inputs and contrasts it with the dispatch the claim states. -/
theorem c1_method_dispatch_bug :
    httpc_request_new_method (("PATCH").toList) =
      { httpget := false, nobody := false, post_shaped := false
        customrequest := some (("PATCH").toList), set_accept_header := false } ∧
    httpc_request_new_method (("DELETE").toList) =
      { httpget := false, nobody := false, post_shaped := true
        customrequest := some (("DELETE").toList), set_accept_header := true } ∧
    spec_method_dispatch (("PATCH").toList) ≠ httpc_request_new_method (("PATCH").toList) ∧
    spec_method_dispatch (("DELETE").toList) ≠ httpc_request_new_method (("DELETE").toList) := by
  refine ⟨by decide, by decide, by decide, by decide⟩

/-- C3: classification of `httpc_request_finish` on each engine terminal
code: OK copies the engine response code into `status` with reason `Ok`
exactly on [100,400) and `Unknown` otherwise, bumping `http_200` on 200 and
`http_other` otherwise; peer-verification failure, timeout, got-nothing and
the five connection-problem codes map to 495, 408, 444 and 595 with the
engine error string, bumping `failed`; out of memory yields a Resource
error and any other code a System error with the engine errno (EINVAL when
the engine reports none), both bumping `failed`. -/
theorem c3_finish_classification (req : ReqFin) (st : Stats) (respCode osErrno : Int)
    (strerror : CurlCode → String) :
    (httpc_request_finish req st .ok respCode osErrno strerror =
      ((if respCode = 200 then { st with http_200_responses := st.http_200_responses + 1 }
        else { st with http_other_responses := st.http_other_responses + 1 }),
       .ok { req with status := respCode,
                      reason := some (if 100 ≤ respCode ∧ respCode < 400
                                      then "Ok" else "Unknown") })) ∧
    (httpc_request_finish req st .peerFailedVerification respCode osErrno strerror =
      ({ st with failed_requests := st.failed_requests + 1 },
       .ok { req with status := 495, reason := some (strerror .peerFailedVerification) })) ∧
    (httpc_request_finish req st .operationTimedout respCode osErrno strerror =
      ({ st with failed_requests := st.failed_requests + 1 },
       .ok { req with status := 408, reason := some (strerror .operationTimedout) })) ∧
    (httpc_request_finish req st .gotNothing respCode osErrno strerror =
      ({ st with failed_requests := st.failed_requests + 1 },
       .ok { req with status := 444, reason := some (strerror .gotNothing) })) ∧
    (∀ c, c = CurlCode.couldntResolveProxy ∨ c = .couldntResolveHost ∨
          c = .couldntConnect ∨ c = .writeError ∨ c = .badContentEncoding →
      httpc_request_finish req st c respCode osErrno strerror =
        ({ st with failed_requests := st.failed_requests + 1 },
         .ok { req with status := 595, reason := some (strerror c) })) ∧
    (httpc_request_finish req st .outOfMemory respCode osErrno strerror =
      ({ st with failed_requests := st.failed_requests + 1 }, .error .outOfMemory)) ∧
    (httpc_request_finish req st .other respCode osErrno strerror =
      ({ st with failed_requests := st.failed_requests + 1 },
       .error (.systemError (if osErrno ≠ 0 then osErrno else EINVAL)
                            (strerror .other)))) := by
  refine ⟨rfl, rfl, rfl, rfl, ?_, rfl, rfl⟩
  rintro c (rfl | rfl | rfl | rfl | rfl) <;> rfl

/-- C3 witness: the theorem applied at concrete inputs, discharging the
595-family hypothesis at `couldntConnect`. -/
theorem c3_finish_classification_witness :
    httpc_request_finish ⟨0, none⟩ ⟨1, 0, 0, 0⟩ .couldntConnect 0 0 (fun _ => "boom") =
      ({ total_requests := 1, http_200_responses := 0,
         http_other_responses := 0, failed_requests := 1 },
       .ok { status := 595, reason := some "boom" }) :=
  ((c3_finish_classification ⟨0, none⟩ ⟨1, 0, 0, 0⟩ 0 0
      (fun _ => "boom")).2.2.2.2.1 .couldntConnect (by decide))

/-- C6 counterexample: on terminal code OK the source copies the engine
response code into `status` unclamped, so an engine response code of 600
finishes successfully with `status = 600`, outside [100, 599]. -/
theorem c6_status_range_counterexample :
    (httpc_request_finish ⟨0, none⟩ ⟨1, 0, 0, 0⟩ .ok 600 0 (fun _ => "e")).2 =
      .ok { status := 600, reason := some "Unknown" } ∧
    ¬ (100 ≤ (600 : Int) ∧ (600 : Int) ≤ 599) :=
  ⟨rfl, by decide⟩

/-- C6 amended: after a successful finish the reason is non-null; the
status equals the engine response code when the terminal code is OK (hence
lies in [100, 599] exactly when that code does), and for every classified
failure the status is one of 408, 444, 495, 595, all inside [100, 599]. -/
theorem c6_finish_success_invariant (req : ReqFin) (st st' : Stats) (code : CurlCode)
    (respCode osErrno : Int) (strerror : CurlCode → String) (r : ReqFin)
    (h : httpc_request_finish req st code respCode osErrno strerror = (st', .ok r)) :
    r.reason ≠ none ∧
    (code = .ok → r.status = respCode) ∧
    (code ≠ .ok → 100 ≤ r.status ∧ r.status ≤ 599) ∧
    (code = .ok → 100 ≤ respCode → respCode ≤ 599 → 100 ≤ r.status ∧ r.status ≤ 599) := by
  cases code
  case ok =>
    have h2 := congrArg Prod.snd h
    simp only [httpc_request_finish] at h2
    injection h2 with h3
    subst h3
    exact ⟨by simp, fun _ => rfl, fun hc => absurd rfl hc, fun _ hl hr => ⟨hl, hr⟩⟩
  case outOfMemory =>
    have h2 := congrArg Prod.snd h
    simp only [httpc_request_finish] at h2
    exact absurd h2 (by simp)
  case other =>
    have h2 := congrArg Prod.snd h
    simp only [httpc_request_finish] at h2
    exact absurd h2 (by simp)
  all_goals
    have h2 := congrArg Prod.snd h
    simp only [httpc_request_finish] at h2
    injection h2 with h3
    subst h3
    exact ⟨by simp, fun hc => absurd hc (by decide), fun _ => by refine ⟨?_, ?_⟩ <;> norm_num,
           fun hc => absurd hc (by decide)⟩

/-- C6 witness: the amended invariant applied to a concrete finish that
classifies got-nothing as 444. -/
theorem c6_finish_success_invariant_witness :
    (ReqFin.mk 444 (some "e")).reason ≠ none ∧
    (CurlCode.gotNothing = .ok → (ReqFin.mk 444 (some "e")).status = 0) ∧
    (CurlCode.gotNothing ≠ .ok →
      100 ≤ (ReqFin.mk 444 (some "e")).status ∧ (ReqFin.mk 444 (some "e")).status ≤ 599) ∧
    (CurlCode.gotNothing = .ok → 100 ≤ (0 : Int) → (0 : Int) ≤ 599 →
      100 ≤ (ReqFin.mk 444 (some "e")).status ∧ (ReqFin.mk 444 (some "e")).status ≤ 599) :=
  c6_finish_success_invariant ⟨0, none⟩ ⟨0, 0, 0, 0⟩ ⟨0, 0, 0, 1⟩ .gotNothing 0 0
    (fun _ => "e") ⟨444, some "e"⟩ rfl

/-- A nondecreasing chain starting at `a` ends at a value at least `a`. -/
theorem chain_le_getLastD {a : Nat} {l : List Nat}
    (h : List.Chain' (· ≤ ·) (a :: l)) : a ≤ l.getLastD a := by
  induction l generalizing a with
  | nil => simp
  | cons b t ih =>
    rw [List.getLastD_cons]
    exact le_trans (List.chain'_cons.mp h).1 (ih (List.chain'_cons.mp h).2)

/-- Unfolding of `finalHopBytes` on a cons cell. -/
theorem finalHopBytes_cons (m c : Nat) (b : List Nat) (t : List (Nat × List Nat)) :
    finalHopBytes m ((c, b) :: t) = (if c = m then b else []) ++ finalHopBytes m t := by
  by_cases hc : c = m
  · simp [finalHopBytes, List.filter_cons, hc]
  · simp [finalHopBytes, List.filter_cons, hc]

/-- Fold invariant of the header callback: starting from stored count
`stored` and accumulated bytes `resp`, processing a trace whose reported
counts are nondecreasing and start at or above `stored` ends with the
stored count equal to the last reported count, and the accumulated bytes
equal to the bytes of the final-count events, preceded by `resp` exactly
when no reset happened. -/
theorem headerCb_foldl_eq (evs : List (Nat × List Nat)) :
    ∀ stored resp, List.Chain' (· ≤ ·) (stored :: evs.map Prod.fst) →
      (evs.foldl curl_easy_header_cb (stored, resp)).1 =
          (evs.map Prod.fst).getLastD stored ∧
      (evs.foldl curl_easy_header_cb (stored, resp)).2 =
          (if (evs.map Prod.fst).getLastD stored = stored then resp else []) ++
            finalHopBytes ((evs.map Prod.fst).getLastD stored) evs := by
  induction evs with
  | nil => intro stored resp _; simp [finalHopBytes]
  | cons e t ih =>
    intro stored resp h
    obtain ⟨c, b⟩ := e
    simp only [List.map_cons] at h
    have h1 : stored ≤ c := (List.chain'_cons.mp h).1
    have h2 : List.Chain' (· ≤ ·) (c :: t.map Prod.fst) := (List.chain'_cons.mp h).2
    simp only [List.map_cons, List.getLastD_cons, List.foldl_cons]
    rcases lt_or_eq_of_le h1 with hlt | heq
    · have hstep : curl_easy_header_cb (stored, resp) (c, b) = (c, b) := by
        simp [curl_easy_header_cb, hlt]
      rw [hstep]
      obtain ⟨ih1, ih2⟩ := ih c b h2
      have hm : c ≤ (t.map Prod.fst).getLastD c := chain_le_getLastD h2
      refine ⟨ih1, ?_⟩
      rw [ih2]
      have hne : (t.map Prod.fst).getLastD c ≠ stored := by omega
      rw [if_neg hne, finalHopBytes_cons, List.nil_append]
      by_cases hc : (t.map Prod.fst).getLastD c = c
      · rw [if_pos hc, if_pos hc.symm]
      · rw [if_neg hc, if_neg (fun hh => hc hh.symm), List.nil_append]
    · subst heq
      have hstep : curl_easy_header_cb (stored, resp) (stored, b) = (stored, resp ++ b) := by
        simp [curl_easy_header_cb]
      rw [hstep]
      obtain ⟨ih1, ih2⟩ := ih stored (resp ++ b) h2
      refine ⟨ih1, ?_⟩
      rw [ih2, finalHopBytes_cons]
      by_cases hc : (t.map Prod.fst).getLastD stored = stored
      · rw [if_pos hc, if_pos hc, if_pos hc.symm, List.append_assoc]
      · rw [if_neg hc, if_neg hc, if_neg (fun hh => hc hh.symm)]
        rw [List.nil_append, List.nil_append]

/-- C2: over any engine trace whose reported redirect counts are
nondecreasing (the engine only ever advances its redirect count), the
header callback leaves the stored redirect count equal to the final
reported count, and `resp_headers` equal byte-for-byte to the concatenated
header bytes of exactly the events reported at that final count: every
intermediate-hop byte is discarded by the reset-on-advance logic. -/
theorem c2_resp_headers_final_hop (evs : List (Nat × List Nat))
    (hmono : List.Chain' (· ≤ ·) (0 :: evs.map Prod.fst)) :
    (processHeaders evs).1 = (evs.map Prod.fst).getLastD 0 ∧
    (processHeaders evs).2 = finalHopBytes ((evs.map Prod.fst).getLastD 0) evs := by
  obtain ⟨h1, h2⟩ := headerCb_foldl_eq evs 0 [] hmono
  refine ⟨h1, ?_⟩
  rw [processHeaders, h2, ite_self, List.nil_append]

/-- C2 witness: a concrete two-hop trace; the callback keeps exactly the
bytes reported at redirect count 1. -/
theorem c2_resp_headers_final_hop_witness :
    List.Chain' (· ≤ ·)
      (0 :: ([(0, [72]), (0, [10]), (1, [66]), (1, [13])].map Prod.fst)) ∧
    (processHeaders [(0, [72]), (0, [10]), (1, [66]), (1, [13])]).2 =
      finalHopBytes
        (([(0, [72]), (0, [10]), (1, [66]), (1, [13])].map Prod.fst).getLastD 0)
        [(0, [72]), (0, [10]), (1, [66]), (1, [13])] := by
  have hchain : List.Chain' (· ≤ ·)
      (0 :: ([(0, [72]), (0, [10]), (1, [66]), (1, [13])].map Prod.fst)) := by
    simp only [List.map_cons, List.map_nil]
    exact .cons (by norm_num) (.cons (by norm_num) (.cons (by norm_num)
      (.cons (by norm_num) (List.chain'_singleton 1))))
  exact ⟨hchain,
    (c2_resp_headers_final_hop [(0, [72]), (0, [10]), (1, [66]), (1, [13])] hchain).2⟩

/-- The checked callback agrees with the plain one on every step of a trace
whose reported counts never decrease and never jump by more than one. -/
theorem processChecked_from (evs : List (Nat × List Nat)) :
    ∀ stored resp,
      List.Chain' (fun a b => a ≤ b ∧ b ≤ a + 1) (stored :: evs.map Prod.fst) →
      evs.foldlM headerCbChecked (stored, resp) =
        some (evs.foldl curl_easy_header_cb (stored, resp)) := by
  induction evs with
  | nil => intro stored resp _; rfl
  | cons e t ih =>
    intro stored resp h
    obtain ⟨c, b⟩ := e
    simp only [List.map_cons] at h
    have h1 := (List.chain'_cons.mp h).1
    have h2 : List.Chain' (fun a b => a ≤ b ∧ b ≤ a + 1) (c :: t.map Prod.fst) :=
      (List.chain'_cons.mp h).2
    rw [List.foldlM_cons, List.foldl_cons]
    by_cases hgt : c > stored
    · have hc1 : c = stored + 1 := by omega
      have hstep : headerCbChecked (stored, resp) (c, b) = some (c, b) := by
        simp [headerCbChecked, hgt, hc1]
      have hstepcb : curl_easy_header_cb (stored, resp) (c, b) = (c, b) := by
        simp [curl_easy_header_cb, hgt]
      rw [hstep, hstepcb]
      exact ih c b h2
    · have hceq : c = stored := by omega
      subst hceq
      have hstep : headerCbChecked (c, resp) (c, b) = some (c, resp ++ b) := by
        simp [headerCbChecked, hgt]
      have hstepcb : curl_easy_header_cb (c, resp) (c, b) = (c, resp ++ b) := by
        simp [curl_easy_header_cb, hgt]
      rw [hstep, hstepcb]
      exact ih c (resp ++ b) h2

/-- C9: under the engine contract that the reported redirect count starts
at zero and advances by at most one between two header callbacks of the
same request, the assertion `redirect_count == req->redirect_count + 1`
never fires: the checked processing succeeds and agrees with the plain
callback on the whole trace. -/
theorem c9_redirect_assert_never_fires (evs : List (Nat × List Nat))
    (hstep1 : List.Chain' (fun a b => a ≤ b ∧ b ≤ a + 1) (0 :: evs.map Prod.fst)) :
    processHeadersChecked evs = some (processHeaders evs) :=
  processChecked_from evs 0 [] hstep1

/-- C9 witness: a concrete one-redirect trace passes the checked callback. -/
theorem c9_redirect_assert_never_fires_witness :
    List.Chain' (fun a b => a ≤ b ∧ b ≤ a + 1)
      (0 :: ([(0, [7]), (1, [9])].map Prod.fst)) ∧
    processHeadersChecked [(0, [7]), (1, [9])] =
      some (processHeaders [(0, [7]), (1, [9])]) := by
  have hchain : List.Chain' (fun a b => a ≤ b ∧ b ≤ a + 1)
      (0 :: ([(0, [7]), (1, [9])].map Prod.fst)) := by
    simp only [List.map_cons, List.map_nil]
    exact .cons (by norm_num) (.cons (by norm_num) (List.chain'_singleton 1))
  exact ⟨hchain, c9_redirect_assert_never_fires [(0, [7]), (1, [9])] hchain⟩

/-- C5: the guard behaviour of `io_write`: a non-streaming request or a
body-less method fails with IllegalParams; a transfer no longer in progress
or an already-closed upload returns 0 leaving the request untouched; a
deadline expiry while data is still queued and the transfer still runs
reports TimedOut (both when the in-loop wait times out and when the loop is
skipped with the deadline already spent); and a transfer that ended with
data still queued returns 0. -/
theorem c5_io_write_guards (req : IoReq) (data : List Nat) (timeout : Int) (w : IoWorld) :
    (req.io = false →
      httpc_request_io_write req data timeout w =
        some (.err (.illegalParams "io: request must be io"), req)) ∧
    (req.io = true → req.io_send = false →
      httpc_request_io_write req data timeout w =
        some (.err (.illegalParams "io: HTTP request method with no body to send"), req)) ∧
    (req.io = true → req.io_send = true →
      (req.in_progress = false ∨ req.io_send_closed = true) →
      httpc_request_io_write req data timeout w = some (.ret 0, req)) ∧
    (req.io = true → req.io_send = true → req.in_progress = true →
      req.io_send_closed = false →
      drainLoop timeout req.in_progress req.send w.events = some .timedOutErr →
      httpc_request_io_write req data timeout w = some (.err .timedOut, req)) ∧
    (∀ s, req.io = true → req.io_send = true → req.in_progress = true →
      req.io_send_closed = false →
      drainLoop timeout req.in_progress req.send w.events = some (.done true s) →
      s ≠ [] →
      httpc_request_io_write req data timeout w =
        some (.err .timedOut, { req with in_progress := true, send := s })) ∧
    (∀ s, req.io = true → req.io_send = true → req.in_progress = true →
      req.io_send_closed = false →
      drainLoop timeout req.in_progress req.send w.events = some (.done false s) →
      s ≠ [] →
      httpc_request_io_write req data timeout w =
        some (.ret 0, { req with in_progress := false, send := s })) := by
  obtain ⟨io, iosend, ip, cl, snd⟩ := req
  refine ⟨?_, ?_, ?_, ?_, ?_, ?_⟩
  · intro h; subst h; rfl
  · intro h1 h2; subst h1; subst h2; rfl
  · rintro h1 h2 (h3 | h3) <;> subst h1 <;> subst h2 <;> subst h3 <;>
      simp [httpc_request_io_write]
  · intro h1 h2 h3 h4 hd
    subst h1; subst h2; subst h3; subst h4
    simp [httpc_request_io_write, hd]
  · intro s h1 h2 h3 h4 hd hs
    subst h1; subst h2; subst h3; subst h4
    simp [httpc_request_io_write, hd, hs]
  · intro s h1 h2 h3 h4 hd hs
    subst h1; subst h2; subst h3; subst h4
    simp [httpc_request_io_write, hd, hs]

/-- C5 witness: each guard of the theorem applied at a concrete request,
world and timeout. -/
theorem c5_io_write_guards_witness :
    httpc_request_io_write ⟨false, false, false, false, []⟩ [] 0 ⟨[], 0⟩ =
      some (.err (.illegalParams "io: request must be io"),
            ⟨false, false, false, false, []⟩) ∧
    httpc_request_io_write ⟨true, false, false, false, []⟩ [] 0 ⟨[], 0⟩ =
      some (.err (.illegalParams "io: HTTP request method with no body to send"),
            ⟨true, false, false, false, []⟩) ∧
    httpc_request_io_write ⟨true, true, false, true, []⟩ [] 0 ⟨[], 0⟩ =
      some (.ret 0, ⟨true, true, false, true, []⟩) ∧
    httpc_request_io_write ⟨true, true, true, false, [1]⟩ [] 1 ⟨[.timeout], 0⟩ =
      some (.err .timedOut, ⟨true, true, true, false, [1]⟩) ∧
    httpc_request_io_write ⟨true, true, true, false, [1]⟩ [] 1 ⟨[.wake false [1]], 0⟩ =
      some (.ret 0, ⟨true, true, false, false, [1]⟩) :=
  ⟨(c5_io_write_guards ⟨false, false, false, false, []⟩ [] 0 ⟨[], 0⟩).1 rfl,
   (c5_io_write_guards ⟨true, false, false, false, []⟩ [] 0 ⟨[], 0⟩).2.1 rfl rfl,
   (c5_io_write_guards ⟨true, true, false, true, []⟩ [] 0 ⟨[], 0⟩).2.2.1 rfl rfl
     (Or.inl rfl),
   (c5_io_write_guards ⟨true, true, true, false, [1]⟩ [] 1 ⟨[.timeout], 0⟩).2.2.2.1
     rfl rfl rfl rfl rfl,
   (c5_io_write_guards ⟨true, true, true, false, [1]⟩ [] 1
      ⟨[.wake false [1]], 0⟩).2.2.2.2.2 [1] rfl rfl rfl rfl rfl (by decide)⟩

/-- C10: once the drained `send` buffer has been refilled with the new
bytes and the engine resumed, the result of the single deadline-bounded
wait is ignored: if `send` is still non-empty afterwards (the engine did
not consume everything before the deadline) while the transfer is still in
progress, the queued bytes are discarded (`send` is reset) and the call
returns 0, indistinguishable from a completed transfer. -/
theorem c10_final_wait_discards_and_returns_zero (req : IoReq) (data : List Nat)
    (timeout : Int) (w : IoWorld)
    (hio : req.io = true) (hsend : req.io_send = true) (hip : req.in_progress = true)
    (hcl : req.io_send_closed = false)
    (hdrain : drainLoop timeout req.in_progress req.send w.events = some (.done true []))
    (hdata : data ≠ []) (hleft : data.drop w.finalConsumed ≠ []) :
    httpc_request_io_write req data timeout w =
      some (.ret 0, { req with in_progress := true, send := [] }) := by
  obtain ⟨io, iosend, ip, cl, snd⟩ := req
  simp only at hio hsend hip hcl hdrain
  subst hio; subst hsend; subst hip; subst hcl
  simp [httpc_request_io_write, hdrain, hdata, hleft]

/-- C10 witness: concrete call where the engine consumes nothing during the
final wait; the queued byte is discarded and 0 is returned. -/
theorem c10_final_wait_discards_and_returns_zero_witness :
    httpc_request_io_write ⟨true, true, true, false, []⟩ [5] 1 ⟨[], 0⟩ =
      some (.ret 0, ⟨true, true, true, false, []⟩) :=
  c10_final_wait_discards_and_returns_zero ⟨true, true, true, false, []⟩ [5] 1 ⟨[], 0⟩
    rfl rfl rfl rfl rfl (by decide) (by decide)

/-- On an all-digit run, `strtolDigits` consumes everything and folds up
the decimal value. -/
theorem strtolDigits_all_digits (l : List Char) :
    ∀ acc, l.all Char.isDigit = true →
      strtolDigits l acc = (l.foldl (fun a ch => a * 10 + (ch.toNat - 48)) acc, []) := by
  induction l with
  | nil => intro acc _; rfl
  | cons c cs ih =>
    intro acc hl
    simp only [List.all_cons, Bool.and_eq_true] at hl
    simp only [strtolDigits, if_pos hl.1, List.foldl_cons]
    exact ih _ hl.2

/-- The suffix left by `strtolDigits` is the input with its digit run
dropped. -/
theorem strtolDigits_snd (l : List Char) :
    ∀ acc, (strtolDigits l acc).2 = l.dropWhile Char.isDigit := by
  induction l with
  | nil => intro acc; rfl
  | cons c cs ih =>
    intro acc
    rw [List.dropWhile_cons]
    by_cases hc : c.isDigit = true
    · simp only [strtolDigits, if_pos hc, hc, if_true]
      exact ih _
    · simp only [strtolDigits, if_neg hc, hc]
      simp

/-- A list that is not all-digits has a nonempty digit-dropped suffix. -/
theorem dropWhile_digits_ne_nil {l : List Char} (h : l.all Char.isDigit ≠ true) :
    l.dropWhile Char.isDigit ≠ [] := by
  intro hnil
  exact h (List.all_eq_true.mpr (fun x hx => List.dropWhile_eq_nil_iff.mp hnil x hx))

/-- Evaluation of `clValue` once the whitespace-dropped value is known to
be nonempty. -/
theorem clValue_cons {v : List Char} (hv : v ≠ []) {c : Char} {cs : List Char}
    (hw : v.dropWhile isSpace = c :: cs) :
    clValue v =
      (if (if c = '-' ∨ c = '+' then cs else c :: cs) ≠ [] ∧
          (if c = '-' ∨ c = '+' then cs else c :: cs).all Char.isDigit = true then
        if decide (c = '-') = true ∧
            ((((if c = '-' ∨ c = '+' then cs else c :: cs).foldl
                (fun a ch => a * 10 + (ch.toNat - 48)) 0 : Nat)) : Int) ≠ 0
        then none
        else some ((((if c = '-' ∨ c = '+' then cs else c :: cs).foldl
                (fun a ch => a * 10 + (ch.toNat - 48)) 0 : Nat)) : Int)
      else none) := by
  rw [clValue.eq_def, if_neg hv, hw]

/-- Evaluation of `strtol10` when the whitespace-dropped input is a single
character. -/
theorem strtol10_cons_nil {s : List Char} {c : Char}
    (hw : s.dropWhile isSpace = [c]) :
    strtol10 s =
      (if c = '-' then (0, s)
       else if c = '+' then (0, s)
       else if c.isDigit then
         ((((strtolDigits [c] 0).1 : Nat) : Int), (strtolDigits [c] 0).2)
       else (0, s)) := by
  rw [strtol10.eq_def, hw]

/-- Evaluation of `strtol10` when the whitespace-dropped input has at least
two characters. -/
theorem strtol10_cons_cons {s : List Char} {c d : Char} {cs : List Char}
    (hw : s.dropWhile isSpace = c :: d :: cs) :
    strtol10 s =
      (if c = '-' then
         if d.isDigit then
           (-((((strtolDigits (d :: cs) 0).1 : Nat)) : Int), (strtolDigits (d :: cs) 0).2)
         else (0, s)
       else if c = '+' then
         if d.isDigit then
           (((((strtolDigits (d :: cs) 0).1 : Nat)) : Int), (strtolDigits (d :: cs) 0).2)
         else (0, s)
       else if c.isDigit then
         (((((strtolDigits (c :: d :: cs) 0).1 : Nat)) : Int), (strtolDigits (c :: d :: cs) 0).2)
       else (0, s)) := by
  rw [strtol10.eq_def, hw]

/-- Correspondence between the independent acceptance predicate `clValue`
and the `strtol`-based check of the source: accepted values are exactly
those `strtol` consumes entirely with a nonnegative result. -/
theorem strtol10_clValue (v : List Char) :
    (∀ n, clValue v = some n → strtol10 v = (n, []) ∧ 0 ≤ n) ∧
    (clValue v = none → (strtol10 v).2 ≠ [] ∨ (strtol10 v).1 < 0) := by
  by_cases hv : v = []
  · subst hv
    refine ⟨?_, ?_⟩
    · intro n hn
      have hcl : clValue [] = some 0 := rfl
      rw [hcl] at hn
      injection hn with hn
      subst hn
      exact ⟨rfl, le_refl 0⟩
    · intro hn
      have hcl : clValue [] = some 0 := rfl
      rw [hcl] at hn
      exact Option.noConfusion hn
  · rcases hw : v.dropWhile isSpace with _ | ⟨c, cs⟩
    · have hcl : clValue v = none := by
        rw [clValue.eq_def, if_neg hv, hw]
      have hst : strtol10 v = (0, v) := by
        rw [strtol10.eq_def, hw]
      refine ⟨?_, ?_⟩
      · intro n hn
        rw [hcl] at hn
        exact Option.noConfusion hn
      · intro _
        rw [hst]
        exact Or.inl hv
    · by_cases hm : c = '-'
      · subst hm
        have hor : ('-' = '-' ∨ '-' = '+') := Or.inl rfl
        cases cs with
        | nil =>
          have hcl : clValue v = none := by
            rw [clValue_cons hv hw, if_pos hor]
            rfl
          have hst : strtol10 v = (0, v) := by
            rw [strtol10_cons_nil hw]
            rfl
          refine ⟨?_, ?_⟩
          · intro n hn
            rw [hcl] at hn
            exact Option.noConfusion hn
          · intro _
            rw [hst]
            exact Or.inl hv
        | cons d ds =>
          by_cases hd : d.isDigit = true
          · by_cases hall : (d :: ds).all Char.isDigit = true
            · have hdig := strtolDigits_all_digits (d :: ds) 0 hall
              have hst : strtol10 v =
                  (-((((d :: ds).foldl (fun a ch => a * 10 + (ch.toNat - 48)) 0 : Nat)) : Int),
                   []) := by
                rw [strtol10_cons_cons hw, if_pos rfl, if_pos hd, hdig]
              by_cases hn0 :
                  ((((d :: ds).foldl (fun a ch => a * 10 + (ch.toNat - 48)) 0 : Nat)) : Int) = 0
              · have hcl : clValue v = some 0 := by
                  rw [clValue_cons hv hw, if_pos hor, hall, hn0]
                  rfl
                refine ⟨?_, ?_⟩
                · intro n hn
                  rw [hcl] at hn
                  injection hn with hn
                  subst hn
                  refine ⟨?_, le_refl 0⟩
                  rw [hst, hn0]
                  norm_num
                · intro hn
                  rw [hcl] at hn
                  exact Option.noConfusion hn
              · have hcl : clValue v = none := by
                  rw [clValue_cons hv hw, if_pos hor, hall, if_pos ⟨List.cons_ne_nil d ds, rfl⟩]
                  rw [if_pos ⟨by decide, hn0⟩]
                refine ⟨?_, ?_⟩
                · intro n hn
                  rw [hcl] at hn
                  exact Option.noConfusion hn
                · intro _
                  rw [hst]
                  refine Or.inr ?_
                  show -((((d :: ds).foldl (fun a ch => a * 10 + (ch.toNat - 48)) 0 : Nat)) : Int) < 0
                  omega
            · have hcl : clValue v = none := by
                rw [clValue_cons hv hw, if_pos hor,
                    if_neg (fun hand => hall hand.2)]
              have hst : strtol10 v =
                  (-(((strtolDigits (d :: ds) 0).1 : Nat) : Int),
                   (d :: ds).dropWhile Char.isDigit) := by
                rw [strtol10_cons_cons hw, if_pos rfl, if_pos hd, strtolDigits_snd]
              refine ⟨?_, ?_⟩
              · intro n hn
                rw [hcl] at hn
                exact Option.noConfusion hn
              · intro _
                rw [hst]
                exact Or.inl (dropWhile_digits_ne_nil hall)
          · have hallne : (d :: ds).all Char.isDigit ≠ true := fun hh => by
              exact hd (List.all_eq_true.mp hh d (List.mem_cons_self d ds))
            have hcl : clValue v = none := by
              rw [clValue_cons hv hw, if_pos hor,
                  if_neg (fun hand => hallne hand.2)]
            have hst : strtol10 v = (0, v) := by
              rw [strtol10_cons_cons hw, if_pos rfl, if_neg hd]
            refine ⟨?_, ?_⟩
            · intro n hn
              rw [hcl] at hn
              exact Option.noConfusion hn
            · intro _
              rw [hst]
              exact Or.inl hv
      · by_cases hp : c = '+'
        · subst hp
          have hor : ('+' = '-' ∨ '+' = '+') := Or.inr rfl
          have hpm : ¬ ('+' = '-') := by decide
          cases cs with
          | nil =>
            have hcl : clValue v = none := by
              rw [clValue_cons hv hw, if_pos hor]
              rfl
            have hst : strtol10 v = (0, v) := by
              rw [strtol10_cons_nil hw, if_neg hpm]
              rfl
            refine ⟨?_, ?_⟩
            · intro n hn
              rw [hcl] at hn
              exact Option.noConfusion hn
            · intro _
              rw [hst]
              exact Or.inl hv
          | cons d ds =>
            by_cases hd : d.isDigit = true
            · by_cases hall : (d :: ds).all Char.isDigit = true
              · have hdig := strtolDigits_all_digits (d :: ds) 0 hall
                have hst : strtol10 v =
                    (((((d :: ds).foldl (fun a ch => a * 10 + (ch.toNat - 48)) 0 : Nat)) : Int),
                     []) := by
                  rw [strtol10_cons_cons hw, if_neg hpm, if_pos rfl, if_pos hd, hdig]
                have hcl : clValue v =
                    some ((((d :: ds).foldl
                      (fun a ch => a * 10 + (ch.toNat - 48)) 0 : Nat)) : Int) := by
                  rw [clValue_cons hv hw, if_pos hor, hall, if_pos ⟨List.cons_ne_nil d ds, rfl⟩]
                  rw [if_neg (fun hand => hpm (of_decide_eq_true hand.1))]
                refine ⟨?_, ?_⟩
                · intro n hn
                  rw [hcl] at hn
                  injection hn with hn
                  subst hn
                  exact ⟨hst, by omega⟩
                · intro hn
                  rw [hcl] at hn
                  exact Option.noConfusion hn
              · have hcl : clValue v = none := by
                  rw [clValue_cons hv hw, if_pos hor,
                      if_neg (fun hand => hall hand.2)]
                have hst : strtol10 v =
                    ((((strtolDigits (d :: ds) 0).1 : Nat) : Int),
                     (d :: ds).dropWhile Char.isDigit) := by
                  rw [strtol10_cons_cons hw, if_neg hpm, if_pos rfl, if_pos hd,
                      strtolDigits_snd]
                refine ⟨?_, ?_⟩
                · intro n hn
                  rw [hcl] at hn
                  exact Option.noConfusion hn
                · intro _
                  rw [hst]
                  exact Or.inl (dropWhile_digits_ne_nil hall)
            · have hallne : (d :: ds).all Char.isDigit ≠ true := fun hh => by
                exact hd (List.all_eq_true.mp hh d (List.mem_cons_self d ds))
              have hcl : clValue v = none := by
                rw [clValue_cons hv hw, if_pos hor,
                    if_neg (fun hand => hallne hand.2)]
              have hst : strtol10 v = (0, v) := by
                rw [strtol10_cons_cons hw, if_neg hpm, if_pos rfl, if_neg hd]
              refine ⟨?_, ?_⟩
              · intro n hn
                rw [hcl] at hn
                exact Option.noConfusion hn
              · intro _
                rw [hst]
                exact Or.inl hv
        · have hor : ¬ (c = '-' ∨ c = '+') := fun hh => hh.elim hm hp
          by_cases hcd : c.isDigit = true
          · by_cases hall : (c :: cs).all Char.isDigit = true
            · have hdig := strtolDigits_all_digits (c :: cs) 0 hall
              have hcl : clValue v =
                  some ((((c :: cs).foldl
                    (fun a ch => a * 10 + (ch.toNat - 48)) 0 : Nat)) : Int) := by
                rw [clValue_cons hv hw, if_neg hor, hall, if_pos ⟨List.cons_ne_nil c cs, rfl⟩]
                rw [if_neg (fun hand => hm (of_decide_eq_true hand.1))]
              cases cs with
              | nil =>
                have hst : strtol10 v =
                    (((([c].foldl (fun a ch => a * 10 + (ch.toNat - 48)) 0 : Nat)) : Int),
                     []) := by
                  rw [strtol10_cons_nil hw, if_neg hm, if_neg hp, if_pos hcd,
                      strtolDigits_all_digits [c] 0 hall]
                refine ⟨?_, ?_⟩
                · intro n hn
                  rw [hcl] at hn
                  injection hn with hn
                  subst hn
                  exact ⟨hst, by omega⟩
                · intro hn
                  rw [hcl] at hn
                  exact Option.noConfusion hn
              | cons d ds =>
                have hst : strtol10 v =
                    (((((c :: d :: ds).foldl
                        (fun a ch => a * 10 + (ch.toNat - 48)) 0 : Nat)) : Int),
                     []) := by
                  rw [strtol10_cons_cons hw, if_neg hm, if_neg hp, if_pos hcd, hdig]
                refine ⟨?_, ?_⟩
                · intro n hn
                  rw [hcl] at hn
                  injection hn with hn
                  subst hn
                  exact ⟨hst, by omega⟩
                · intro hn
                  rw [hcl] at hn
                  exact Option.noConfusion hn
            · have hcl : clValue v = none := by
                rw [clValue_cons hv hw, if_neg hor,
                    if_neg (fun hand => hall hand.2)]
              cases cs with
              | nil =>
                have hst : strtol10 v =
                    ((((strtolDigits [c] 0).1 : Nat) : Int),
                     [c].dropWhile Char.isDigit) := by
                  rw [strtol10_cons_nil hw, if_neg hm, if_neg hp, if_pos hcd,
                      strtolDigits_snd]
                refine ⟨?_, ?_⟩
                · intro n hn
                  rw [hcl] at hn
                  exact Option.noConfusion hn
                · intro _
                  rw [hst]
                  exact Or.inl (dropWhile_digits_ne_nil hall)
              | cons d ds =>
                have hst : strtol10 v =
                    ((((strtolDigits (c :: d :: ds) 0).1 : Nat) : Int),
                     (c :: d :: ds).dropWhile Char.isDigit) := by
                  rw [strtol10_cons_cons hw, if_neg hm, if_neg hp, if_pos hcd,
                      strtolDigits_snd]
                refine ⟨?_, ?_⟩
                · intro n hn
                  rw [hcl] at hn
                  exact Option.noConfusion hn
                · intro _
                  rw [hst]
                  exact Or.inl (dropWhile_digits_ne_nil hall)
          · have hallne : (c :: cs).all Char.isDigit ≠ true := fun hh => by
              exact hcd (List.all_eq_true.mp hh c (List.mem_cons_self c cs))
            have hcl : clValue v = none := by
              rw [clValue_cons hv hw, if_neg hor,
                  if_neg (fun hand => hallne hand.2)]
            cases cs with
            | nil =>
              have hst : strtol10 v = (0, v) := by
                rw [strtol10_cons_nil hw, if_neg hm, if_neg hp, if_neg hcd]
              refine ⟨?_, ?_⟩
              · intro n hn
                rw [hcl] at hn
                exact Option.noConfusion hn
              · intro _
                rw [hst]
                exact Or.inl hv
            | cons d ds =>
              have hst : strtol10 v = (0, v) := by
                rw [strtol10_cons_cons hw, if_neg hm, if_neg hp, if_neg hcd]
              refine ⟨?_, ?_⟩
              · intro n hn
                rw [hcl] at hn
                exact Option.noConfusion hn
              · intro _
                rw [hst]
                exact Or.inl hv

/-- Destructuring of a successful case-insensitive prefix test. -/
theorem startsWithCase_cons_elim {p : Char} {ps s : List Char}
    (h : startsWithCase (p :: ps) s = true) :
    ∃ c cs, s = c :: cs ∧ c.toLower = p.toLower ∧ startsWithCase ps cs = true := by
  cases s with
  | nil => exact absurd h (by simp [startsWithCase])
  | cons c cs =>
    simp only [startsWithCase, Bool.and_eq_true, beq_iff_eq] at h
    exact ⟨c, cs, rfl, h.1, h.2⟩

/-- A line carrying the `Content-Length:` prefix matches neither the
`Accept:` nor the `Connection:` prefix (they diverge at characters 0 and
3), so `httpc_set_header` reaches the Content-Length branch on it. -/
theorem cl_prefix_excludes {line : List Char}
    (h : startsWithCase HTTP_CONTENT_LENGTH_HEADER line = true) :
    startsWithCase HTTP_ACCEPT_HEADER line = false ∧
    startsWithCase HTTP_CONNECTION_HEADER line = false := by
  have h' : startsWithCase
      ('C' :: 'o' :: 'n' :: 't' :: (("ent-Length:").toList)) line = true := h
  obtain ⟨c0, r0, rfl, h0, h'⟩ := startsWithCase_cons_elim h'
  obtain ⟨c1, r1, rfl, h1, h'⟩ := startsWithCase_cons_elim h'
  obtain ⟨c2, r2, rfl, h2, h'⟩ := startsWithCase_cons_elim h'
  obtain ⟨c3, r3, rfl, h3, h'⟩ := startsWithCase_cons_elim h'
  refine ⟨?_, ?_⟩
  · show ((c0.toLower == 'A'.toLower) &&
      startsWithCase (("ccept:").toList) (c1 :: c2 :: c3 :: r3)) = false
    rw [h0]
    rfl
  · show ((c0.toLower == 'C'.toLower) && ((c1.toLower == 'o'.toLower) &&
      ((c2.toLower == 'n'.toLower) && ((c3.toLower == 'n'.toLower) &&
        startsWithCase (("ection:").toList) r3)))) = false
    rw [h0, h1, h2, h3]
    rfl

/-- C4 (amended): a line with the `Content-Length:` prefix and an in-bound
length has its value parsed as by `strtol`: a value accepted by `clValue`
(a fully consumed optional-whitespace, optional-sign digit run with
nonnegative result, or the empty value, accepted as 0) is stored into
`content_length` and the call succeeds; every other value fails with
IllegalParams, leaving the request (hence `content_length`) unchanged. -/
theorem c4_content_length_header (req : ReqHdr) (line : List Char)
    (hpre : startsWithCase HTTP_CONTENT_LENGTH_HEADER line = true)
    (hlen : line.length ≤ MAX_HEADER_LEN) :
    (∀ n, clValue (line.drop 15) = some n →
      httpc_set_header req line =
        .ok { req with
                content_length := n, headers := req.headers ++ [line] }) ∧
    (clValue (line.drop 15) = none →
      httpc_set_header req line =
        .error (.illegalParams
          "Content-Length header value must be a non-negative integer")) := by
  obtain ⟨hacc, hconn⟩ := cl_prefix_excludes hpre
  have hnotlen : ¬ (line.length > MAX_HEADER_LEN) := by omega
  have h15 : HTTP_CONTENT_LENGTH_HEADER.length = 15 := rfl
  refine ⟨?_, ?_⟩
  · intro n hn
    obtain ⟨hst, hnn⟩ := (strtol10_clValue (line.drop 15)).1 n hn
    have hcond : ¬ (((n, ([] : List Char)).2 ≠ [] ∨ (n, ([] : List Char)).1 < 0)) :=
      fun hh => hh.elim (fun h2 => h2 rfl) (fun h1 => absurd h1 (not_lt.mpr hnn))
    rw [httpc_set_header.eq_def, if_neg hnotlen, hacc, hconn, hpre, h15]
    simp only []
    rw [hst, if_neg hcond]
    rfl
  · intro hn
    have herr := (strtol10_clValue (line.drop 15)).2 hn
    rw [httpc_set_header.eq_def, if_neg hnotlen, hacc, hconn, hpre, h15]
    simp only []
    rw [if_pos herr]
    rfl

/-- C4 counterexample: the line `Content-Length:` with an empty value is
not a non-negative integer, yet the source accepts it: `strtol` performs no
conversion, leaves `end` at the terminator and returns 0, so the call
succeeds and overwrites `content_length` (initially -1) with 0 instead of
failing with IllegalParams. -/
theorem c4_empty_value_counterexample :
    HTTP_CONTENT_LENGTH_HEADER.drop 15 = [] ∧
    (reqHdrNew false).content_length = -1 ∧
    httpc_set_header (reqHdrNew false) HTTP_CONTENT_LENGTH_HEADER =
      .ok { reqHdrNew false with
              content_length := 0, headers := [HTTP_CONTENT_LENGTH_HEADER] } :=
  ⟨rfl, rfl, rfl⟩

/-- C4 witness: the amended theorem applied to `Content-Length: 7`. -/
theorem c4_content_length_header_witness :
    httpc_set_header (reqHdrNew false) (("Content-Length: 7").toList) =
      .ok { reqHdrNew false with
              content_length := 7, headers := [("Content-Length: 7").toList] } :=
  (c4_content_length_header (reqHdrNew false) (("Content-Length: 7").toList)
      (by decide) (by decide)).1 7 (by decide)

/-- C8 (amended): every line longer than MAX_HEADER_LEN fails with
IllegalParams (the length check runs first, so this holds regardless of
content); every line of length at most MAX_HEADER_LEN that is not a
Content-Length line succeeds. A Content-Length line of in-bound length
succeeds exactly when its value parses (see the Content-Length theorem), so
"exactly MAX_HEADER_LEN succeeds" holds for all but invalid Content-Length
lines. -/
theorem c8_header_length_bound (req : ReqHdr) (line : List Char) :
    (line.length > MAX_HEADER_LEN →
      httpc_set_header req line = .error (.illegalParams "header is too large")) ∧
    (line.length ≤ MAX_HEADER_LEN →
      startsWithCase HTTP_CONTENT_LENGTH_HEADER line = false →
      ∃ r, httpc_set_header req line = .ok r) := by
  refine ⟨?_, ?_⟩
  · intro h
    rw [httpc_set_header.eq_def, if_pos h]
  · intro hle hcl
    have hnotlen : ¬ (line.length > MAX_HEADER_LEN) := by omega
    cases ha : startsWithCase HTTP_ACCEPT_HEADER line with
    | true =>
      exact ⟨{ req with
                 set_accept_header := false, headers := req.headers ++ [line] },
             by rw [httpc_set_header.eq_def, if_neg hnotlen, ha]; rfl⟩
    | false =>
      cases hc : startsWithCase HTTP_CONNECTION_HEADER line with
      | true =>
        exact ⟨{ req with
                   set_connection_header := false, headers := req.headers ++ [line] },
               by rw [httpc_set_header.eq_def, if_neg hnotlen, ha, hc]; rfl⟩
      | false =>
        cases hk : startsWithCase HTTP_KEEP_ALIVE_HEADER line with
        | true =>
          exact ⟨{ req with
                     set_keep_alive_header := false, headers := req.headers ++ [line] },
                 by rw [httpc_set_header.eq_def, if_neg hnotlen, ha, hc, hcl, hk]; rfl⟩
        | false =>
          exact ⟨{ req with headers := req.headers ++ [line] },
                 by rw [httpc_set_header.eq_def, if_neg hnotlen, ha, hc, hcl, hk]; rfl⟩

/-- A case-insensitive prefix test always succeeds against the prefix
itself followed by anything. -/
theorem startsWithCase_append_self (p rest : List Char) :
    startsWithCase p (p ++ rest) = true := by
  induction p with
  | nil => rfl
  | cons c cs ih => simp [startsWithCase, ih]

/-- C8 counterexample: a line of exactly MAX_HEADER_LEN bytes that is a
Content-Length header with a non-numeric value fails with IllegalParams,
so a line of exactly MAX_HEADER_LEN bytes does not always succeed. -/
theorem c8_max_len_line_counterexample :
    (HTTP_CONTENT_LENGTH_HEADER ++ List.replicate 8177 'x').length = MAX_HEADER_LEN ∧
    httpc_set_header (reqHdrNew false) (HTTP_CONTENT_LENGTH_HEADER ++ List.replicate 8177 'x') =
      .error (.illegalParams
        "Content-Length header value must be a non-negative integer") := by
  have hlen : (HTTP_CONTENT_LENGTH_HEADER ++ List.replicate 8177 'x').length =
      MAX_HEADER_LEN := by
    rw [List.length_append, List.length_replicate]
    rfl
  refine ⟨hlen, ?_⟩
  have hpre : startsWithCase HTTP_CONTENT_LENGTH_HEADER
      (HTTP_CONTENT_LENGTH_HEADER ++ List.replicate 8177 'x') = true :=
    startsWithCase_append_self _ _
  obtain ⟨hacc, hconn⟩ := cl_prefix_excludes hpre
  have hnotlen : ¬ ((HTTP_CONTENT_LENGTH_HEADER ++ List.replicate 8177 'x').length >
      MAX_HEADER_LEN) := by omega
  rw [httpc_set_header.eq_def, if_neg hnotlen, hacc, hconn, hpre]
  simp only []
  rfl

/-- C8 witness: the length bound applied at a line one byte over the bound
(fails) and at a non-Content-Length line of exactly the bound (succeeds). -/
theorem c8_header_length_bound_witness :
    httpc_set_header (reqHdrNew false) (List.replicate 8193 'z') =
      .error (.illegalParams "header is too large") ∧
    (∃ r, httpc_set_header (reqHdrNew false) ('X' :: List.replicate 8191 'y') = .ok r) :=
  ⟨(c8_header_length_bound (reqHdrNew false) (List.replicate 8193 'z')).1
     (by rw [List.length_replicate]; decide),
   (c8_header_length_bound (reqHdrNew false) ('X' :: List.replicate 8191 'y')).2
     (by rw [List.length_cons, List.length_replicate]; decide) (by rfl)⟩

/-- The fuelled digit printer never exceeds its fuel in length. -/
theorem natDigitsAux_length_le : ∀ fuel n, (natDigitsAux fuel n).length ≤ fuel := by
  intro fuel
  induction fuel with
  | zero => intro n; simp [natDigitsAux]
  | succ f ih =>
    intro n
    by_cases hn : n = 0
    · simp [natDigitsAux, hn]
    · simp only [natDigitsAux, if_neg hn, List.length_append, List.length_cons,
                 List.length_nil]
      have := ih (n / 10)
      omega

/-- The Keep-Alive timeout line is always far below the header bound. -/
theorem kaLine_length_le (t : Int) : (kaLine t).length ≤ 86 := by
  have h1 : (natDecimal t.natAbs).length ≤ 64 := by
    by_cases h : t.natAbs = 0
    · simp [natDecimal, h]
    · simp only [natDecimal, if_neg h]
      exact le_trans (natDigitsAux_length_le 64 t.natAbs) (by norm_num)
  have h2 : (natDecimal t.toNat).length ≤ 64 := by
    by_cases h : t.toNat = 0
    · simp [natDecimal, h]
    · simp only [natDecimal, if_neg h]
      exact le_trans (natDigitsAux_length_le 64 t.toNat) (by norm_num)
  by_cases ht : t < 0
  · simp only [kaLine, fmtLong, if_pos ht, List.length_append, List.length_cons]
    have h20 : ((("Keep-Alive: timeout=").toList)).length = 20 := rfl
    omega
  · simp only [kaLine, fmtLong, if_neg ht, List.length_append]
    have h20 : ((("Keep-Alive: timeout=").toList)).length = 20 := rfl
    omega

/-- Evaluation of `httpc_set_header` on the auto Accept line. -/
theorem set_header_accept_eval (req : ReqHdr) :
    httpc_set_header req accLine =
      .ok { req with
              set_accept_header := false,
              headers := req.headers ++ [accLine] } := rfl

/-- Evaluation of `httpc_set_header` on the auto Connection line: it
clears `set_connection_header` and appends, for either timeout sign. -/
theorem set_header_conn_eval (req : ReqHdr) (t : Int) :
    httpc_set_header req (connLine t) =
      .ok { req with
              set_connection_header := false,
              headers := req.headers ++ [connLine t] } := by
  by_cases ht : 0 < t
  · simp only [connLine, if_pos ht]; rfl
  · simp only [connLine, if_neg ht]; rfl

/-- The Keep-Alive line does not match the Accept prefix. -/
theorem ka_acc_false (t : Int) :
    startsWithCase HTTP_ACCEPT_HEADER (kaLine t) = false := rfl

/-- The Keep-Alive line does not match the Connection prefix. -/
theorem ka_conn_false (t : Int) :
    startsWithCase HTTP_CONNECTION_HEADER (kaLine t) = false := rfl

/-- The Keep-Alive line does not match the Content-Length prefix. -/
theorem ka_cl_false (t : Int) :
    startsWithCase HTTP_CONTENT_LENGTH_HEADER (kaLine t) = false := rfl

/-- The Keep-Alive line matches the Keep-Alive prefix. -/
theorem ka_ka_true (t : Int) :
    startsWithCase HTTP_KEEP_ALIVE_HEADER (kaLine t) = true := rfl

/-- Evaluation of `httpc_set_header` on the auto Keep-Alive line: it
clears `set_keep_alive_header` and appends. -/
theorem set_header_ka_eval (req : ReqHdr) (t : Int) :
    httpc_set_header req (kaLine t) =
      .ok { req with
              set_keep_alive_header := false,
              headers := req.headers ++ [kaLine t] } := by
  have hnotlen : ¬ ((kaLine t).length > MAX_HEADER_LEN) := by
    have := kaLine_length_le t
    simp only [MAX_HEADER_LEN]
    omega
  rw [httpc_set_header.eq_def, if_neg hnotlen, ka_acc_false t, ka_conn_false t,
      ka_cl_false t, ka_ka_true t]
  rfl

/-- C7: at start, the auto-managed Connection and Keep-Alive headers are
appended exactly when their flag is still set: a `Connection:` line
(Keep-Alive form when the keep-alive timeout is positive, close form
otherwise) exactly when `set_connection_header` is set, and a
`Keep-Alive: timeout=` line exactly when `set_keep_alive_header` is set
and the timeout is positive; and those flags are exactly the record of the
caller not having supplied the header: `set_header` on a line with the
`Connection:` (resp. `Keep-Alive:`) prefix clears the matching flag. -/
theorem c7_auto_headers (req : ReqHdr) (line : List Char) (r : ReqHdr) :
    (∃ r0, httpc_request_start_headers req = .ok r0 ∧
      r0.headers = req.headers
        ++ (if req.set_accept_header then [accLine] else [])
        ++ (if req.set_connection_header then [connLine req.keep_alive_timeout] else [])
        ++ (if req.set_keep_alive_header ∧ 0 < req.keep_alive_timeout
            then [kaLine req.keep_alive_timeout] else [])) ∧
    (httpc_set_header req line = .ok r →
      (startsWithCase HTTP_CONNECTION_HEADER line = true →
        r.set_connection_header = false) ∧
      (startsWithCase HTTP_KEEP_ALIVE_HEADER line = true →
        r.set_keep_alive_header = false)) := by
  obtain ⟨a, sc, sk, cl, t, hs⟩ := req
  refine ⟨?_, ?_⟩
  · by_cases ht : 0 < t <;>
      cases a <;> cases sc <;> cases sk <;>
        simp [httpc_request_start_headers, set_header_accept_eval,
              set_header_conn_eval, set_header_ka_eval, ht, bind, Except.bind,
              pure, Except.pure]
  · intro hok
    refine ⟨?_, ?_⟩
    · intro hconn
      obtain ⟨c0, r0, rfl, h0, -⟩ := startsWithCase_cons_elim
        (show startsWithCase ('C' :: ((("onnection:").toList))) (line) = true from hconn)
      have hacc : startsWithCase HTTP_ACCEPT_HEADER (c0 :: r0) = false := by
        show ((c0.toLower == 'A'.toLower) &&
          startsWithCase ((("ccept:").toList)) r0) = false
        rw [h0]
        rfl
      by_cases hlen : (c0 :: r0).length > MAX_HEADER_LEN
      · rw [httpc_set_header.eq_def, if_pos hlen] at hok
        exact Except.noConfusion hok
      · have heval : httpc_set_header (ReqHdr.mk a sc sk cl t hs) (c0 :: r0) =
            .ok (ReqHdr.mk a false sk cl t (hs ++ [c0 :: r0])) := by
          rw [httpc_set_header.eq_def, if_neg hlen, hacc, hconn]
          rfl
        rw [heval] at hok
        injection hok with hok
        rw [← hok]
    · intro hka
      obtain ⟨c0, r0, rfl, h0, -⟩ := startsWithCase_cons_elim
        (show startsWithCase ('K' :: ((("eep-Alive:").toList))) (line) = true from hka)
      have hacc : startsWithCase HTTP_ACCEPT_HEADER (c0 :: r0) = false := by
        show ((c0.toLower == 'A'.toLower) &&
          startsWithCase ((("ccept:").toList)) r0) = false
        rw [h0]
        rfl
      have hconn : startsWithCase HTTP_CONNECTION_HEADER (c0 :: r0) = false := by
        show ((c0.toLower == 'C'.toLower) &&
          startsWithCase ((("onnection:").toList)) r0) = false
        rw [h0]
        rfl
      have hcl : startsWithCase HTTP_CONTENT_LENGTH_HEADER (c0 :: r0) = false := by
        show ((c0.toLower == 'C'.toLower) &&
          startsWithCase ((("ontent-Length:").toList)) r0) = false
        rw [h0]
        rfl
      by_cases hlen : (c0 :: r0).length > MAX_HEADER_LEN
      · rw [httpc_set_header.eq_def, if_pos hlen] at hok
        exact Except.noConfusion hok
      · have heval : httpc_set_header (ReqHdr.mk a sc sk cl t hs) (c0 :: r0) =
            .ok (ReqHdr.mk a sc false cl t (hs ++ [c0 :: r0])) := by
          rw [httpc_set_header.eq_def, if_neg hlen, hacc, hconn, hcl, hka]
          rfl
        rw [heval] at hok
        injection hok with hok
        rw [← hok]

/-- C7 witness: the auto-header phase of a fresh request, and the flag
cleared by an explicit `Connection: close` header. -/
theorem c7_auto_headers_witness :
    (∃ r0, httpc_request_start_headers (reqHdrNew false) = .ok r0 ∧
      r0.headers = (reqHdrNew false).headers
        ++ (if (reqHdrNew false).set_accept_header then [accLine] else [])
        ++ (if (reqHdrNew false).set_connection_header
            then [connLine (reqHdrNew false).keep_alive_timeout] else [])
        ++ (if (reqHdrNew false).set_keep_alive_header ∧
               0 < (reqHdrNew false).keep_alive_timeout
            then [kaLine (reqHdrNew false).keep_alive_timeout] else [])) ∧
    (ReqHdr.mk false false true (-1) 0 [(("Connection: close").toList)]).set_connection_header
      = false :=
  ⟨(c7_auto_headers (reqHdrNew false) ((("Connection: close").toList))
      (ReqHdr.mk false false true (-1) 0 [(("Connection: close").toList)])).1,
   (((c7_auto_headers (reqHdrNew false) ((("Connection: close").toList))
      (ReqHdr.mk false false true (-1) 0 [(("Connection: close").toList)])).2 rfl).1 rfl)⟩

end Httpc
